import Mathlib

/-!
# VobSub2SRT: the timestamp converter and the conversion loop of `main`

A shallow embedding of `src/vobsub2srt.c++`.

* `unsigned` values are natural numbers below `2 ^ 32`; arithmetic on them wraps
  (`usub`, `umul`, `uinc`).
* A `char*` / `std::string` value is the list of its characters before the
  terminator.
* `snprintf` / `fprintf` are embedded by `format`, a reader of the conversion
  specifications that occur in the program (`%u`, `%s`, `%0Nd`), applied to the
  format strings of the source.
* The collaborators (demuxer, decoder, OCR engine, C library) are a script of
  answers (`Env`); `main` is a function of its arguments and that script which
  returns what it did (`State`) and how it ended (`Status`).
-/

namespace VobSub2SRT

/-! ## Machine arithmetic -/

/-- Number of values of the C type `unsigned`. -/
def UINT_RANGE : Nat := 2 ^ 32

/-- Unsigned subtraction `a - b`. -/
def usub (a b : Nat) : Nat := (a + (UINT_RANGE - b % UINT_RANGE)) % UINT_RANGE

/-- Unsigned multiplication `a * b`. -/
def umul (a b : Nat) : Nat := (a * b) % UINT_RANGE

/-- Unsigned pre-increment `++a`. -/
def uinc (a : Nat) : Nat := (a + 1) % UINT_RANGE

/-- Conversion of an `int` argument to an `unsigned` parameter. -/
def int_to_unsigned (i : Int) : Nat := (i % (UINT_RANGE : Int)).toNat

/-! ## Formatted output -/

/-- An argument handed to a formatting call: an `unsigned` or a C string. -/
inductive Arg where
  | u (v : Nat)
  | s (str : List Char)

/-- Left padding with `'0'` up to the field width `w`. -/
def zero_pad (w : Nat) (ds : List Char) : List Char :=
  List.replicate (w - ds.length) '0' ++ ds

/-- The conversion `%u`: the decimal digits of the value. -/
def fmt_u (v : Nat) : List Char := Nat.toDigits 10 v

/-- The conversion `%0<w>d` of a 32-bit argument: the argument is read as a
signed `int`, so values from `2 ^ 31` on print with a minus sign. -/
def fmt_0d (w : Nat) (v : Nat) : List Char :=
  if v < 2 ^ 31 then zero_pad w (Nat.toDigits 10 v)
  else '-' :: zero_pad (w - 1) (Nat.toDigits 10 (UINT_RANGE - v))

/-- The output of a `printf`-family call for a format string and its arguments.
Only the conversions used by the program are read: `%u`, `%s` and `%0<w>d`
with a one-digit width; every other character is copied. -/
def format : List Char → List Arg → List Char
  | [], _ => []
  | '%' :: 'u' :: rest, Arg.u v :: as => fmt_u v ++ format rest as
  | '%' :: 's' :: rest, Arg.s str :: as => str ++ format rest as
  | '%' :: '0' :: w :: 'd' :: rest, Arg.u v :: as =>
    fmt_0d (w.toNat - '0'.toNat) v ++ format rest as
  | c :: cs, args => c :: format cs args

/-- The call `snprintf(buf, size, fmt, args...)` followed by reading `buf` as a C string:
at most `size - 1` characters of the formatted text are stored. -/
def snprintf (size : Nat) (fmt : String) (args : List Arg) : List Char :=
  (format fmt.data args).take (size - 1)

/-! ## `pts2srt` -/

/-- The four fields computed by `pts2srt` before formatting: `(h, m, s, ms)`. -/
def pts2srt_fields (pts : Nat) : Nat × Nat × Nat × Nat :=
  let ms := pts / 90
  let h := ms / (3600 * 1000)
  let ms := usub ms (umul (umul h 3600) 1000)
  let m := ms / (60 * 1000)
  let ms := usub ms (umul (umul m 60) 1000)
  let s := ms / 1000
  let ms := ms % 1000
  (h, m, s, ms)

/-- The function `std::string pts2srt(unsigned pts)`. -/
def pts2srt (pts : Nat) : String :=
  let f := pts2srt_fields pts
  String.mk (snprintf 13 "%02d:%02d:%02d,%03d"
    [Arg.u f.1, Arg.u f.2.1, Arg.u f.2.2.1, Arg.u f.2.2.2])

/-! ## The collaborators -/

/-- One answer of the demuxer to `vobsub_get_next_packet`, together with what the
decoder (`spudec_get_data`) and the OCR engine (`TesseractRect`) answer when the
program goes on to ask them about this packet. `text = none` is the null pointer. -/
structure Packet where
  len : Int
  timestamp : Int
  image_size : Nat
  width : Nat
  height : Nat
  stride : Nat
  start_pts : Nat
  end_pts : Nat
  text : Option String

/-- The answers of the outside world during one run of `main`. After the last
scripted packet `vobsub_get_next_packet` answers with the end of the stream. -/
structure Env where
  vobsub_open_ok : Bool
  fopen_ok : Bool
  packets : List Packet

/-- A call of `main` into a collaborator, with the arguments that matter. -/
inductive Call where
  | mp_msg_init
  | SimpleInit
  | vobsub_open (name : String) (ifo : Option String)
  | fopen (name : String)
  | perror
  | vobsub_get_next_packet
  | spudec_assemble (len : Int) (timestamp : Int)
  | spudec_heartbeat (timestamp : Int)
  | spudec_get_data
  | dump_pgm (name : String)
  | TesseractRect (stride : Nat) (width : Nat) (height : Nat)
  | fprintf (text : String)
  | End
  | fclose
  | vobsub_close
  | spudec_free
  deriving DecidableEq

/-- Where the run stands: still in the program, returned from `main` with a status,
or past a call whose behaviour the C library leaves undefined (a null `FILE*`
handed to `fprintf` or `fclose`). -/
inductive Status where
  | running
  | ended
  | returned (code : Int)
  | undefined
  deriving DecidableEq

/-- The variables of `main` that the loop changes and everything the run has done. -/
structure State where
  status : Status
  /-- Variable `unsigned sub_counter`. -/
  sub_counter : Nat
  /-- Whether `srtout` is a non-null `FILE*`. -/
  srtout : Bool
  /-- The texts written to `srtout`, one per `fprintf`, oldest first. -/
  srt : List String
  /-- The collaborator calls made, oldest first. -/
  calls : List Call
  stdout : List String
  stderr : List String

/-- Record a collaborator call. -/
def State.call (st : State) (c : Call) : State := { st with calls := st.calls ++ [c] }

/-- Write to `cout`. -/
def State.cout (st : State) (s : String) : State := { st with stdout := st.stdout ++ [s] }

/-- Write to `cerr`. -/
def State.cerr (st : State) (s : String) : State := { st with stderr := st.stderr ++ [s] }

/-- The bytes in the output file: everything written to `srtout`, in order. -/
def State.srt_bytes (st : State) : String := String.join st.srt

/-! ## `dump_pgm` and the record written per subtitle -/

/-- The local `bool dump_images = false;` of `main`. -/
def dump_images : Bool := false

/-- The file name `dump_pgm` builds: `snprintf(buf, sizeof(buf), "%s-%u.pgm", filename, counter)`. -/
def dump_pgm_name (filename : String) (counter : Nat) : String :=
  String.mk (snprintf 50 "%s-%u.pgm" [Arg.s filename.data, Arg.u counter])

/-- The text of
`fprintf(srtout, "%u\n%s --> %s\n%s\n\n", sub_counter, pts2srt(timestamp).c_str(), pts2srt(end_pts).c_str(), text)`. -/
def srt_record (sub_counter : Nat) (timestamp : Int) (end_pts : Nat) (text : String) : String :=
  String.mk (format "%u\n%s --> %s\n%s\n\n".data
    [Arg.u sub_counter, Arg.s (pts2srt (int_to_unsigned timestamp)).data,
     Arg.s (pts2srt end_pts).data, Arg.s text.data])

/-! ## The conversion loop and `main` -/

/-- One evaluation of the loop condition
`(len = vobsub_get_next_packet(vob, &packet, &timestamp)) > 0`
with the answer `p`, followed by the loop body when the condition holds;
`subname` is `argv[1]`. -/
def step (subname : String) (st : State) (p : Packet) : State :=
  match st.status with
  | Status.running =>
    let st := st.call Call.vobsub_get_next_packet
    if 0 < p.len then
      if 0 ≤ p.timestamp then
        let st := st.cout ("timestamp: " ++ toString p.timestamp ++ " -> "
          ++ pts2srt (int_to_unsigned p.timestamp) ++ "\n")
        let st := st.call (Call.spudec_assemble p.len p.timestamp)
        let st := st.call (Call.spudec_heartbeat p.timestamp)
        let st := st.call Call.spudec_get_data
        let st := st.cout ("start_pts: " ++ toString p.start_pts ++ " -> "
          ++ pts2srt p.start_pts ++ "\n")
        let st := st.cout ("end_pts: " ++ toString p.end_pts ++ " -> "
          ++ pts2srt p.end_pts ++ "\n")
        let st := st.cout ("width: " ++ toString p.width ++ " height: " ++ toString p.height
          ++ " stride: " ++ toString p.stride ++ " size: " ++ toString p.image_size ++ "\n")
        let st := if dump_images then
            st.call (Call.dump_pgm (dump_pgm_name subname st.sub_counter)) else st
        let st := st.call (Call.TesseractRect p.stride p.width p.height)
        match p.text with
        | none => st.cerr "OCR failed\n"
        | some text =>
          let st := st.cout ("Text: " ++ text ++ "\n")
          let out := srt_record st.sub_counter p.timestamp p.end_pts text
          let st := st.call (Call.fprintf out)
          if st.srtout then
            { st with srt := st.srt ++ [out], sub_counter := uinc st.sub_counter }
          else
            { st with status := Status.undefined }
      else st
    else { st with status := Status.ended }
  | _ => st

/-- The last evaluation of the loop condition when the script has no further answer:
the demuxer reports the end of the stream (`-1`) and the loop is left. -/
def end_of_stream (st : State) : State :=
  match st.status with
  | Status.running => { st.call Call.vobsub_get_next_packet with status := Status.ended }
  | _ => st

/-- The `while` loop of `main`, lines 105-132. -/
def convert_loop (subname : String) (packets : List Packet) (st : State) : State :=
  end_of_stream (packets.foldl (step subname) st)

/-- The state of `main` before its first statement. -/
def State.init : State :=
  { status := Status.running, sub_counter := 0, srtout := false, srt := [], calls := [],
    stdout := [], stderr := [] }

/-- The usage text written for a malformed invocation. -/
def usage (argv0 : String) : String :=
  "usage: " ++ argv0 ++
  " <subname> [<ifo>]\n\n\t<subname> ... without .idx/.sub suffix.\n\t<ifo> ... optional path to ifo file\n"

/-- The name `main` builds for the output file:
`string srt_filename = argv[0]; srt_filename += ".srt";`. -/
def srt_filename (argv : List String) : String := argv.getD 0 "" ++ ".srt"

/-- The part of `main` before the loop, lines 69-104: argument check, initialisation,
`vobsub_open`, `fopen`, and `unsigned sub_counter = 1`. The status is `running`
when the loop is reached. `argc` is the length of `argv`, and `argv[argc]` is the
null pointer. -/
def setup (argv : List String) (env : Env) : State :=
  let argc := argv.length
  let st := State.init
  if argc < 2 ∨ argc > 3 then
    { st.cerr (usage (argv.getD 0 "")) with status := Status.returned 1 }
  else
    let st := st.call Call.mp_msg_init
    let st := st.call Call.SimpleInit
    let st := st.call (Call.vobsub_open (argv.getD 1 "") (if argc = 3 then argv.get? 3 else none))
    if ¬ env.vobsub_open_ok then
      { st.cerr "Couldn\x27t open VobSub\n" with status := Status.returned 1 }
    else
      let st := st.call (Call.fopen (srt_filename argv))
      let st := if env.fopen_ok then { st with srtout := true } else st.call Call.perror
      { st with sub_counter := 1 }

/-- The part of `main` after the loop, lines 134-139; falling off the end of `main`
returns `0`. -/
def finish (argv : List String) (st : State) : State :=
  match st.status with
  | Status.ended =>
    let st := st.call Call.End
    let st := st.call Call.fclose
    if st.srtout then
      let st := st.cout ("Wrote Subtitles to \x27" ++ srt_filename argv ++ "\x27\n")
      let st := st.call Call.vobsub_close
      let st := st.call Call.spudec_free
      { st with status := Status.returned 0 }
    else
      { st with status := Status.undefined }
  | _ => st

/-- The function `int main(int argc, char **argv)`. -/
def main (argv : List String) (env : Env) : State :=
  finish argv (convert_loop (argv.getD 1 "") env.packets (setup argv env))

/-! ## Definitions used to state the properties -/

/-- The spec's `padN`: the decimal rendering, zero-padded on the left to at least `n` digits. -/
def padN (n : Nat) (v : Nat) : String :=
  String.mk (List.replicate (n - (Nat.repr v).length) '0') ++ Nat.repr v

/-- The spec's timestamp converter, following its words: total milliseconds, then
hours, minutes, seconds and the remaining milliseconds, padded 2-2-2-3. -/
def pts2srt_spec (t : Nat) : String :=
  let total := t / 90
  let h := total / 3600000
  let m := (total % 3600000) / 60000
  let s := (total % 60000) / 1000
  let r := total % 1000
  padN 2 h ++ ":" ++ padN 2 m ++ ":" ++ padN 2 s ++ "," ++ padN 3 r

/-- The number a decimal digit character stands for. -/
def digit_value (c : Char) : Nat := c.toNat - '0'.toNat

/-- The packets the loop body runs on: the answers before the first one whose
length is not positive. -/
def processed (ps : List Packet) : List Packet := ps.takeWhile (fun p => decide (0 < p.len))

/-- Successful recognition for a packet: timestamp present and OCR result non-null. -/
def recognized (p : Packet) : Bool := decide (0 ≤ p.timestamp) && p.text.isSome

/-- The packets of a run that yield successful recognition, in processing order. -/
def successes (ps : List Packet) : List Packet := (processed ps).filter recognized

/-- The records of a list of recognised packets, numbered upwards from `c`. -/
def numbered (c : Nat) : List Packet → List String
  | [] => []
  | p :: ps => srt_record c p.timestamp p.end_pts (p.text.getD "") :: numbered (c + 1) ps

/-- The lines of a text read from left to right, `cur` holding the characters of the
line being read, newest first: every line feed ends a line, and what follows the
last line feed is a line of its own when it is not empty. -/
def lines_from (cur : List Char) : List Char → List String
  | [] => if cur.isEmpty then [] else [String.mk cur.reverse]
  | c :: cs =>
    if c = '\n' then String.mk cur.reverse :: lines_from [] cs else lines_from (c :: cur) cs

/-- The lines of a text. -/
def text_lines (s : String) : List String := lines_from [] s.data

/-- Two answers of the collaborators that agree on the packet (its length and
timestamp), on the decoder-reported `end_pts` and on the recognition result. -/
def agree (p q : Packet) : Prop :=
  p.len = q.len ∧ p.timestamp = q.timestamp ∧ p.end_pts = q.end_pts ∧ p.text = q.text

instance (p q : Packet) : Decidable (agree p q) := by
  unfold agree
  infer_instance

/-- Two states that agree on everything that decides what is written to `srtout`. -/
def same_output (a b : State) : Prop :=
  a.status = b.status ∧ a.srtout = b.srtout ∧ a.srt = b.srt ∧ a.sub_counter = b.sub_counter

instance (a b : State) : Decidable (same_output a b) := by
  unfold same_output
  infer_instance

/-! ## Sample inputs -/

/-- A sample invocation: `vobsub2srt movie`. -/
def sample_argv : List String := ["vobsub2srt", "movie"]

/-- A sample packet of `len` bytes with the given timestamp, decoder-reported
interval and recognition result; the image is 720x480 with stride 720. -/
def sample_packet (len timestamp : Int) (start_pts end_pts : Nat) (text : Option String) :
    Packet :=
  { len := len, timestamp := timestamp, image_size := 345600, width := 720, height := 480,
    stride := 720, start_pts := start_pts, end_pts := end_pts, text := text }

/-- A sample stream: a recognised subtitle, a packet without timestamp, a subtitle
the OCR engine gives up on, and a second recognised subtitle. -/
def sample_packets : List Packet :=
  [sample_packet 2048 0 0 90000 (some "Hello"),
   sample_packet 2048 (-1) 0 0 none,
   sample_packet 2048 90000 90000 180000 none,
   sample_packet 2048 180000 180000 270000 (some "World")]

/-- The sample stream with other decoder-reported start times. -/
def sample_packets_shifted : List Packet :=
  [sample_packet 2048 0 4500 90000 (some "Hello"),
   sample_packet 2048 (-1) 77 0 none,
   sample_packet 2048 90000 1 180000 none,
   sample_packet 2048 180000 4294967295 270000 (some "World")]

/-! ## The timestamp converter -/

theorem usub_of_le (a b : Nat) (hb : b ≤ a) (ha : a < 2 ^ 32) : usub a b = a - b := by
  simp only [usub, UINT_RANGE]
  omega

theorem umul_of_lt (a b : Nat) (h : a * b < 2 ^ 32) : umul a b = a * b := by
  simp only [umul, UINT_RANGE]
  exact Nat.mod_eq_of_lt h

theorem uinc_of_lt (c : Nat) (h : c + 1 < 2 ^ 32) : uinc c = c + 1 := by
  simp only [uinc, UINT_RANGE]
  exact Nat.mod_eq_of_lt h

/-- No subtraction or product in `pts2srt` wraps: the fields are the quotients and
remainders of the total milliseconds. -/
theorem pts2srt_fields_eq (t : Nat) (ht : t < 2 ^ 32) :
    pts2srt_fields t =
      (t / 90 / 3600000, t / 90 % 3600000 / 60000, t / 90 % 60000 / 1000, t / 90 % 1000) := by
  have e1 : umul (umul (t / 90 / (3600 * 1000)) 3600) 1000 = t / 90 / 3600000 * 3600000 := by
    rw [umul_of_lt _ 3600 (by omega), umul_of_lt _ 1000 (by omega)]
    omega
  have e2 : usub (t / 90) (t / 90 / 3600000 * 3600000) = t / 90 % 3600000 := by
    rw [usub_of_le _ _ (by omega) (by omega)]
    omega
  have e3 : umul (umul (t / 90 % 3600000 / (60 * 1000)) 60) 1000
      = t / 90 % 3600000 / 60000 * 60000 := by
    rw [umul_of_lt _ 60 (by omega), umul_of_lt _ 1000 (by omega)]
    omega
  have e4 : usub (t / 90 % 3600000) (t / 90 % 3600000 / 60000 * 60000) = t / 90 % 60000 := by
    rw [usub_of_le _ _ (by omega) (by omega)]
    omega
  have e5 : t / 90 % 60000 % 1000 = t / 90 % 1000 := by omega
  simp only [pts2srt_fields, e1, e2, e3, e4, e5]

theorem fmt_0d_two : ∀ v, v < 100 →
    fmt_0d 2 v = [Nat.digitChar (v / 10), Nat.digitChar (v % 10)] := by decide

set_option maxRecDepth 100000 in
theorem fmt_0d_three : ∀ v, v < 1000 →
    fmt_0d 3 v =
      [Nat.digitChar (v / 100), Nat.digitChar (v / 10 % 10), Nat.digitChar (v % 10)] := by
  decide

theorem padN_two : ∀ v, v < 100 →
    padN 2 v = String.mk [Nat.digitChar (v / 10), Nat.digitChar (v % 10)] := by decide

set_option maxRecDepth 100000 in
theorem padN_three : ∀ v, v < 1000 →
    padN 3 v = String.mk
      [Nat.digitChar (v / 100), Nat.digitChar (v / 10 % 10), Nat.digitChar (v % 10)] := by
  decide

theorem digitChar_digit : ∀ d, d < 10 →
    (Nat.digitChar d).isDigit = true ∧ digit_value (Nat.digitChar d) = d := by decide

/-- The text `snprintf` formats in `pts2srt`, before it is cut to the buffer. -/
theorem pts2srt_formatted (t : Nat) (ht : t < 2 ^ 32) :
    format "%02d:%02d:%02d,%03d".data
      [Arg.u (pts2srt_fields t).1, Arg.u (pts2srt_fields t).2.1,
       Arg.u (pts2srt_fields t).2.2.1, Arg.u (pts2srt_fields t).2.2.2] =
      [Nat.digitChar (t / 90 / 3600000 / 10), Nat.digitChar (t / 90 / 3600000 % 10), ':',
       Nat.digitChar (t / 90 % 3600000 / 60000 / 10),
       Nat.digitChar (t / 90 % 3600000 / 60000 % 10), ':',
       Nat.digitChar (t / 90 % 60000 / 1000 / 10), Nat.digitChar (t / 90 % 60000 / 1000 % 10),
       ',', Nat.digitChar (t / 90 % 1000 / 100), Nat.digitChar (t / 90 % 1000 / 10 % 10),
       Nat.digitChar (t / 90 % 1000 % 10)] := by
  have w2 : '2'.toNat - '0'.toNat = 2 := by decide
  have w3 : '3'.toNat - '0'.toNat = 3 := by decide
  simp only [pts2srt_fields_eq t ht, format, w2, w3]
  rw [fmt_0d_two _ (by omega), fmt_0d_two _ (by omega), fmt_0d_two _ (by omega),
    fmt_0d_three _ (by omega)]
  rfl

theorem pts2srt_digits (t : Nat) (ht : t < 2 ^ 32) :
    (pts2srt t).data =
      [Nat.digitChar (t / 90 / 3600000 / 10), Nat.digitChar (t / 90 / 3600000 % 10), ':',
       Nat.digitChar (t / 90 % 3600000 / 60000 / 10),
       Nat.digitChar (t / 90 % 3600000 / 60000 % 10), ':',
       Nat.digitChar (t / 90 % 60000 / 1000 / 10), Nat.digitChar (t / 90 % 60000 / 1000 % 10),
       ',', Nat.digitChar (t / 90 % 1000 / 100), Nat.digitChar (t / 90 % 1000 / 10 % 10),
       Nat.digitChar (t / 90 % 1000 % 10)] := by
  simp only [pts2srt, snprintf, pts2srt_formatted t ht]
  rfl

/-- Claim C1: for every 32-bit tick value `t`, `pts2srt t` is
`pad2 h ++ ":" ++ pad2 m ++ ":" ++ pad2 s ++ "," ++ pad3 r` with `total = t / 90`,
`h = total / 3600000`, `m = total % 3600000 / 60000`, `s = total % 60000 / 1000` and
`r = total % 1000`: the code, with its wrapping arithmetic, its signed conversions
and its 13-byte buffer, computes what the spec's converter computes. -/
theorem pts2srt_eq_spec (t : Nat) (ht : t < 2 ^ 32) : pts2srt t = pts2srt_spec t := by
  have h := pts2srt_digits t ht
  have e : pts2srt t = String.mk (pts2srt t).data := rfl
  rw [e, h]
  simp only [pts2srt_spec]
  rw [padN_two _ (by omega), padN_two _ (by omega), padN_two _ (by omega),
    padN_three _ (by omega)]
  rfl

theorem pts2srt_eq_spec_witness :
    4294967295 < 2 ^ 32 ∧ pts2srt 4294967295 = pts2srt_spec 4294967295 :=
  ⟨by decide, pts2srt_eq_spec 4294967295 (by decide)⟩

/-- Claim C2: for every 32-bit tick value `t`, `pts2srt t` has the shape
`DD:DD:DD,DDD`: twelve characters, decimal digits at positions 0, 1, 3, 4, 6, 7, 9,
10 and 11, `:` at positions 2 and 5, `,` at position 8; the minutes and the seconds
read from it are below 60 and the milliseconds below 1000; and the formatted text is
twelve characters long, so the 13-byte buffer stores all of it. -/
theorem pts2srt_shape (t : Nat) (ht : t < 2 ^ 32) :
    (∃ h1 h0 m1 m0 s1 s0 r2 r1 r0 : Char,
      (pts2srt t).data = [h1, h0, ':', m1, m0, ':', s1, s0, ',', r2, r1, r0] ∧
      (h1.isDigit = true ∧ h0.isDigit = true ∧ m1.isDigit = true ∧ m0.isDigit = true ∧
        s1.isDigit = true ∧ s0.isDigit = true ∧ r2.isDigit = true ∧ r1.isDigit = true ∧
        r0.isDigit = true) ∧
      digit_value m1 * 10 + digit_value m0 < 60 ∧
      digit_value s1 * 10 + digit_value s0 < 60 ∧
      digit_value r2 * 100 + digit_value r1 * 10 + digit_value r0 < 1000) ∧
    (pts2srt t).length = 12 ∧
    (format "%02d:%02d:%02d,%03d".data
      [Arg.u (pts2srt_fields t).1, Arg.u (pts2srt_fields t).2.1,
       Arg.u (pts2srt_fields t).2.2.1, Arg.u (pts2srt_fields t).2.2.2]).length = 12 ∧
    format "%02d:%02d:%02d,%03d".data
      [Arg.u (pts2srt_fields t).1, Arg.u (pts2srt_fields t).2.1,
       Arg.u (pts2srt_fields t).2.2.1, Arg.u (pts2srt_fields t).2.2.2] = (pts2srt t).data := by
  have hd := pts2srt_digits t ht
  have hf := pts2srt_formatted t ht
  obtain ⟨a1, a2⟩ := digitChar_digit (t / 90 / 3600000 / 10) (by omega)
  obtain ⟨b1, b2⟩ := digitChar_digit (t / 90 / 3600000 % 10) (by omega)
  obtain ⟨c1, c2⟩ := digitChar_digit (t / 90 % 3600000 / 60000 / 10) (by omega)
  obtain ⟨d1, d2⟩ := digitChar_digit (t / 90 % 3600000 / 60000 % 10) (by omega)
  obtain ⟨e1, e2⟩ := digitChar_digit (t / 90 % 60000 / 1000 / 10) (by omega)
  obtain ⟨f1, f2⟩ := digitChar_digit (t / 90 % 60000 / 1000 % 10) (by omega)
  obtain ⟨g1, g2⟩ := digitChar_digit (t / 90 % 1000 / 100) (by omega)
  obtain ⟨i1, i2⟩ := digitChar_digit (t / 90 % 1000 / 10 % 10) (by omega)
  obtain ⟨j1, j2⟩ := digitChar_digit (t / 90 % 1000 % 10) (by omega)
  refine ⟨⟨_, _, _, _, _, _, _, _, _, hd, ⟨a1, b1, c1, d1, e1, f1, g1, i1, j1⟩, ?_, ?_, ?_⟩,
    ?_, ?_, ?_⟩
  · rw [c2, d2]
    omega
  · rw [e2, f2]
    omega
  · rw [g2, i2, j2]
    omega
  · rw [String.length, hd]
    rfl
  · rw [hf]
    rfl
  · rw [hf, hd]

theorem pts2srt_shape_witness :
    4294967295 < 2 ^ 32 ∧ (pts2srt 4294967295).length = 12 :=
  ⟨by decide, (pts2srt_shape 4294967295 (by decide)).2.1⟩

/-- Claim C3: the three test vectors of the spec: `pts2srt 0`, `pts2srt 90000` and
`pts2srt (5401 * 90)`. -/
theorem pts2srt_test_vectors :
    pts2srt 0 = "00:00:00,000" ∧ pts2srt 90000 = "00:00:01,000" ∧
    pts2srt (5401 * 90) = "00:00:05,401" := by
  decide

/-! ## The conversion loop -/

theorem foldl_step_stopped (sub : String) (ps : List Packet) (st : State)
    (h : st.status ≠ Status.running) : ps.foldl (step sub) st = st := by
  induction ps with
  | nil => rfl
  | cons p ps ih =>
    have hs : step sub st p = st := by
      unfold step
      split
      · rename_i h1
        exact absurd h1 h
      · rfl
    rw [List.foldl_cons, hs, ih]

theorem step_end (sub : String) (st : State) (p : Packet) (h : st.status = Status.running)
    (hlen : ¬ 0 < p.len) :
    step sub st p = { st.call Call.vobsub_get_next_packet with status := Status.ended } := by
  unfold step
  simp [h, hlen]

theorem step_no_timestamp (sub : String) (st : State) (p : Packet)
    (h : st.status = Status.running) (hlen : 0 < p.len) (hts : p.timestamp < 0) :
    step sub st p = st.call Call.vobsub_get_next_packet := by
  unfold step
  simp [h, hlen, not_le.mpr hts]

theorem step_ocr_failed (sub : String) (st : State) (p : Packet)
    (h : st.status = Status.running) (hlen : 0 < p.len) (hts : 0 ≤ p.timestamp)
    (htext : p.text = none) :
    (step sub st p).status = Status.running ∧ (step sub st p).srtout = st.srtout ∧
    (step sub st p).srt = st.srt ∧ (step sub st p).sub_counter = st.sub_counter := by
  unfold step
  simp [h, hlen, hts, htext, dump_images, State.call, State.cout, State.cerr]

theorem step_success (sub : String) (st : State) (p : Packet) (text : String)
    (h : st.status = Status.running) (hout : st.srtout = true) (hlen : 0 < p.len)
    (hts : 0 ≤ p.timestamp) (htext : p.text = some text) :
    (step sub st p).status = Status.running ∧ (step sub st p).srtout = true ∧
    (step sub st p).srt = st.srt ++ [srt_record st.sub_counter p.timestamp p.end_pts text] ∧
    (step sub st p).sub_counter = uinc st.sub_counter := by
  unfold step
  simp [h, hlen, hts, htext, hout, dump_images, State.call, State.cout, State.cerr]


theorem successes_cons_end (p : Packet) (ps : List Packet) (hlen : ¬ 0 < p.len) :
    successes (p :: ps) = [] := by
  simp [successes, processed, List.takeWhile_cons, hlen]

theorem successes_cons_skip (p : Packet) (ps : List Packet) (hlen : 0 < p.len)
    (hrec : recognized p = false) : successes (p :: ps) = successes ps := by
  simp [successes, processed, List.takeWhile_cons, hlen, List.filter_cons, hrec]

theorem successes_cons_keep (p : Packet) (ps : List Packet) (hlen : 0 < p.len)
    (hrec : recognized p = true) : successes (p :: ps) = p :: successes ps := by
  simp [successes, processed, List.takeWhile_cons, hlen, List.filter_cons, hrec]

/-- The loop invariant, from any state in which the loop is running with an open
output file: the packets that yield successful recognition are written in order,
numbered upwards from the current counter. -/
theorem loop_records (sub : String) (ps : List Packet) : ∀ st : State,
    st.status = Status.running → st.srtout = true →
    st.sub_counter + (successes ps).length < 2 ^ 32 →
    ((ps.foldl (step sub) st).status = Status.running ∨
      (ps.foldl (step sub) st).status = Status.ended) ∧
    (ps.foldl (step sub) st).srtout = true ∧
    (ps.foldl (step sub) st).srt = st.srt ++ numbered st.sub_counter (successes ps) ∧
    (ps.foldl (step sub) st).sub_counter = st.sub_counter + (successes ps).length := by
  induction ps with
  | nil =>
    intro st h hout _
    simp [successes, processed, numbered, h, hout]
  | cons p ps ih =>
    intro st h hout hK
    rw [List.foldl_cons]
    by_cases hlen : 0 < p.len
    · by_cases hts : 0 ≤ p.timestamp
      · cases htext : p.text with
        | none =>
          have hrec : recognized p = false := by simp [recognized, htext]
          obtain ⟨h1, h2, h3, h4⟩ := step_ocr_failed sub st p h hlen hts htext
          rw [successes_cons_skip p ps hlen hrec] at hK ⊢
          have := ih (step sub st p) h1 (by rw [h2, hout]) (by rw [h4]; exact hK)
          rw [h3, h4] at this
          exact this
        | some text =>
          have hrec : recognized p = true := by simp [recognized, htext, hts]
          obtain ⟨h1, h2, h3, h4⟩ := step_success sub st p text h hout hlen hts htext
          rw [successes_cons_keep p ps hlen hrec] at hK ⊢
          simp only [List.length_cons] at hK
          rw [uinc_of_lt _ (by omega)] at h4
          have := ih (step sub st p) h1 h2 (by rw [h4]; omega)
          rw [h3, h4] at this
          obtain ⟨a, b, c, d⟩ := this
          refine ⟨a, b, ?_, ?_⟩
          · rw [c]
            simp [numbered, htext]
          · rw [d]
            simp only [List.length_cons]
            omega
      · have hrec : recognized p = false := by simp [recognized, hts]
        have hs := step_no_timestamp sub st p h hlen (not_le.mp hts)
        rw [successes_cons_skip p ps hlen hrec] at hK ⊢
        have := ih (step sub st p) (by rw [hs]; exact h) (by rw [hs]; exact hout)
          (by rw [hs]; exact hK)
        rw [hs] at this ⊢
        exact this
    · have hs := step_end sub st p h hlen
      rw [successes_cons_end p ps hlen]
      rw [foldl_step_stopped sub ps _ (by rw [hs]; simp)]
      rw [hs]
      simp [numbered, State.call, hout]


theorem numbered_getElem? (xs : List Packet) : ∀ (c j : Nat),
    (numbered c xs)[j]? =
      (xs[j]?).map (fun p => srt_record (c + j) p.timestamp p.end_pts (p.text.getD "")) := by
  induction xs with
  | nil => intro c j; simp [numbered]
  | cons x xs ih =>
    intro c j
    cases j with
    | zero => simp [numbered]
    | succ j =>
      simp only [numbered, List.getElem?_cons_succ, ih]
      have : c + 1 + j = c + (j + 1) := by omega
      rw [this]

theorem numbered_length (xs : List Packet) : ∀ c, (numbered c xs).length = xs.length := by
  induction xs with
  | nil => intro c; rfl
  | cons x xs ih => intro c; simp [numbered, ih]

theorem successes_take_length_le (ps : List Packet) : ∀ n,
    (successes (ps.take n)).length ≤ (successes ps).length := by
  induction ps with
  | nil => intro n; simp
  | cons p ps ih =>
    intro n
    cases n with
    | zero => simp [successes, processed]
    | succ n =>
      rw [List.take_succ_cons]
      by_cases hlen : 0 < p.len
      · cases hrec : recognized p with
        | false =>
          rw [successes_cons_skip p _ hlen hrec, successes_cons_skip p _ hlen hrec]
          exact ih n
        | true =>
          rw [successes_cons_keep p _ hlen hrec, successes_cons_keep p _ hlen hrec]
          simp only [List.length_cons]
          exact Nat.succ_le_succ (ih n)
      · rw [successes_cons_end p _ hlen, successes_cons_end p _ hlen]

theorem step_unrecognized (sub : String) (st : State) (p : Packet)
    (hrec : recognized p = false) :
    (step sub st p).srt = st.srt ∧ (step sub st p).sub_counter = st.sub_counter := by
  unfold step
  split
  · by_cases hlen : 0 < p.len
    · by_cases hts : 0 ≤ p.timestamp
      · have htext : p.text = none := by
          cases h : p.text with
          | none => rfl
          | some t => simp [recognized, hts, h] at hrec
        simp [hlen, hts, htext, dump_images, State.call, State.cout, State.cerr]
      · simp [hlen, hts, State.call]
    · simp [hlen, State.call]
  · exact ⟨rfl, rfl⟩

theorem setup_ready (argv : List String) (env : Env)
    (hargc : argv.length = 2 ∨ argv.length = 3) (hvob : env.vobsub_open_ok = true)
    (hfopen : env.fopen_ok = true) :
    (setup argv env).status = Status.running ∧ (setup argv env).srtout = true ∧
    (setup argv env).srt = [] ∧ (setup argv env).sub_counter = 1 := by
  have h1 : ¬ (argv.length < 2 ∨ argv.length > 3) := by omega
  simp [setup, h1, hvob, hfopen, State.call, State.init]

theorem end_of_stream_keeps (st : State) :
    (end_of_stream st).srt = st.srt ∧ (end_of_stream st).sub_counter = st.sub_counter ∧
    (end_of_stream st).srtout = st.srtout := by
  unfold end_of_stream
  split <;> simp [State.call]

theorem end_of_stream_status (st : State)
    (h : st.status = Status.running ∨ st.status = Status.ended) :
    (end_of_stream st).status = Status.ended := by
  unfold end_of_stream
  rcases h with h | h
  · simp [h]
  · simp [h]

theorem finish_keeps (argv : List String) (st : State) :
    (finish argv st).srt = st.srt ∧ (finish argv st).sub_counter = st.sub_counter := by
  unfold finish
  split
  · cases hout : st.srtout <;> simp [State.call, State.cout, hout]
  · exact ⟨rfl, rfl⟩

theorem finish_status (argv : List String) (st : State) (h : st.status = Status.ended)
    (hout : st.srtout = true) : (finish argv st).status = Status.returned 0 := by
  unfold finish
  simp [h, hout, State.call, State.cout]


theorem step_same_output (sub : String) (a b : State) (p q : Packet)
    (hs : same_output a b) (hpq : agree p q) :
    same_output (step sub a p) (step sub b q) := by
  obtain ⟨h1, h2, h3, h4⟩ := hs
  obtain ⟨g1, g2, g3, g4⟩ := hpq
  unfold step same_output
  rw [← h1, ← g1, ← g2, ← g3, ← g4]
  cases hst : a.status <;> simp only [hst, h1, h2, h3, h4, and_self]
  · by_cases hlen : 0 < p.len
    · by_cases hts : 0 ≤ p.timestamp
      · cases htext : p.text with
        | none =>
          simp [hlen, hts, dump_images, State.call, State.cout, State.cerr, h2, h3, h4]
          exact h1
        | some text =>
          cases hout : b.srtout <;>
            simp [hlen, hts, dump_images, State.call, State.cout, State.cerr, h2, h3, h4, hout]
          exact h1
      · simp [hlen, hts, State.call, h2, h3, h4]
        exact h1
    · simp [hlen, State.call, h2, h3, h4]
  all_goals simp [← h1, hst, h2, h3, h4]

theorem foldl_same_output (sub : String) (ps qs : List Packet)
    (h : List.Forall₂ agree ps qs) : ∀ a b : State, same_output a b →
    same_output (ps.foldl (step sub) a) (qs.foldl (step sub) b) := by
  induction h with
  | nil => intro a b hs; exact hs
  | cons hpq _ ih =>
    intro a b hs
    exact ih _ _ (step_same_output sub a b _ _ hs hpq)

theorem setup_same (argv : List String) (env1 env2 : Env)
    (hv : env1.vobsub_open_ok = env2.vobsub_open_ok) (hf : env1.fopen_ok = env2.fopen_ok) :
    setup argv env1 = setup argv env2 := by
  unfold setup
  rw [hv, hf]


theorem step_stopped (sub : String) (st : State) (p : Packet)
    (h : st.status ≠ Status.running) : step sub st p = st := by
  have := foldl_step_stopped sub [p] st h
  simpa using this

theorem step_status (sub : String) (st : State) (p : Packet)
    (h : st.status = Status.running) (hout : st.srtout = true) :
    ((step sub st p).status = Status.running ∨ (step sub st p).status = Status.ended) ∧
    (step sub st p).srtout = true := by
  by_cases hlen : 0 < p.len
  · by_cases hts : 0 ≤ p.timestamp
    · cases htext : p.text with
      | none =>
        obtain ⟨h1, h2, _, _⟩ := step_ocr_failed sub st p h hlen hts htext
        exact ⟨Or.inl h1, by rw [h2, hout]⟩
      | some text =>
        obtain ⟨h1, h2, _, _⟩ := step_success sub st p text h hout hlen hts htext
        exact ⟨Or.inl h1, h2⟩
    · rw [step_no_timestamp sub st p h hlen (not_le.mp hts)]
      exact ⟨Or.inl h, hout⟩
  · rw [step_end sub st p h hlen]
    exact ⟨Or.inr rfl, hout⟩

/-- With an open output file the loop never leaves the program by itself: after any
number of answers it is still running or has ended normally. -/
theorem loop_status (sub : String) (ps : List Packet) : ∀ st : State,
    (st.status = Status.running ∨ st.status = Status.ended) → st.srtout = true →
    ((ps.foldl (step sub) st).status = Status.running ∨
      (ps.foldl (step sub) st).status = Status.ended) ∧
    (ps.foldl (step sub) st).srtout = true := by
  induction ps with
  | nil => intro st h hout; exact ⟨h, hout⟩
  | cons p ps ih =>
    intro st h hout
    rw [List.foldl_cons]
    rcases h with h | h
    · obtain ⟨h1, h2⟩ := step_status sub st p h hout
      exact ih _ h1 h2
    · rw [step_stopped sub st p (by rw [h]; simp)]
      exact ih _ (Or.inr h) hout

theorem digitChar_ne_newline (k : Nat) : Nat.digitChar k ≠ '\n' := by
  by_cases h : k < 16
  · revert k
    decide
  · have e : Nat.digitChar k = '*' := by
      unfold Nat.digitChar
      repeat rw [if_neg (by omega)]
    rw [e]
    decide

theorem toDigitsCore_no_newline (fuel : Nat) : ∀ (n : Nat) (acc : List Char),
    (∀ c ∈ acc, c ≠ '\n') → ∀ c ∈ Nat.toDigitsCore 10 fuel n acc, c ≠ '\n' := by
  induction fuel with
  | zero => intro n acc h; simpa [Nat.toDigitsCore] using h
  | succ fuel ih =>
    intro n acc h
    rw [Nat.toDigitsCore]
    have h2 : ∀ c ∈ Nat.digitChar (n % 10) :: acc, c ≠ '\n' := by
      intro c hc
      rcases List.mem_cons.mp hc with rfl | hc
      · exact digitChar_ne_newline _
      · exact h c hc
    split
    · exact h2
    · exact ih _ _ h2

/-- The decimal rendering of a number holds no line feed. -/
theorem toString_no_newline (n : Nat) : ∀ c ∈ (toString n).data, c ≠ '\n' :=
  toDigitsCore_no_newline _ _ _ (by simp)

theorem int_to_unsigned_lt (i : Int) : int_to_unsigned i < 2 ^ 32 := by
  simp only [int_to_unsigned, UINT_RANGE]
  omega

/-- A formatted timestamp holds no line feed. -/
theorem pts2srt_no_newline (t : Nat) (ht : t < 2 ^ 32) :
    ∀ c ∈ (pts2srt t).data, c ≠ '\n' := by
  intro c hc
  rw [pts2srt_digits t ht] at hc
  simp only [List.mem_cons, List.mem_singleton, List.not_mem_nil, or_false] at hc
  rcases hc with rfl | rfl | rfl | rfl | rfl | rfl | rfl | rfl | rfl | rfl | rfl | rfl
  all_goals first | exact digitChar_ne_newline _ | decide

/-- The line `<start> --> <end>` of a record holds no line feed. -/
theorem time_line_no_newline (a b : Nat) (ha : a < 2 ^ 32) (hb : b < 2 ^ 32) :
    ∀ c ∈ (pts2srt a ++ " --> " ++ pts2srt b).data, c ≠ '\n' := by
  intro c hc
  simp only [String.data_append, List.mem_append] at hc
  rcases hc with (hc | hc) | hc
  · exact pts2srt_no_newline a ha c hc
  · revert c
    decide
  · exact pts2srt_no_newline b hb c hc

theorem srt_record_eq (c : Nat) (timestamp : Int) (end_pts : Nat) (text : String) :
    srt_record c timestamp end_pts text =
      toString c ++ "\n" ++ (pts2srt (int_to_unsigned timestamp) ++ " --> " ++ pts2srt end_pts)
        ++ "\n" ++ text ++ "\n" ++ "\n" := by
  apply String.ext
  simp only [srt_record, format, String.data_append]
  simp only [fmt_u, List.append_assoc, List.cons_append, List.nil_append, List.append_nil]
  rfl

/-- What `main` leaves behind when both files open: the records of the recognised
packets numbered from 1, the counter one past their number, and exit status 0. -/
theorem main_numbered (argv : List String) (env : Env)
    (hargc : argv.length = 2 ∨ argv.length = 3) (hvob : env.vobsub_open_ok = true)
    (hfopen : env.fopen_ok = true)
    (hK : (successes env.packets).length + 1 < 2 ^ 32) :
    (main argv env).srt = numbered 1 (successes env.packets) ∧
    (main argv env).sub_counter = (successes env.packets).length + 1 ∧
    (main argv env).status = Status.returned 0 := by
  obtain ⟨s1, s2, s3, s4⟩ := setup_ready argv env hargc hvob hfopen
  obtain ⟨l1, l2, l3, l4⟩ := loop_records (argv.getD 1 "") env.packets (setup argv env) s1 s2
    (by rw [s4]; omega)
  obtain ⟨e1, e2, e3⟩ := end_of_stream_keeps
    (env.packets.foldl (step (argv.getD 1 "")) (setup argv env))
  have e4 := end_of_stream_status _ l1
  obtain ⟨f1, f2⟩ := finish_keeps argv
    (end_of_stream (env.packets.foldl (step (argv.getD 1 "")) (setup argv env)))
  have f3 := finish_status argv _ e4 (by rw [e3, l2])
  unfold main convert_loop
  refine ⟨?_, ?_, f3⟩
  · rw [f1, e1, l3, s3, s4, List.nil_append]
  · rw [f2, e2, l4, s4, Nat.add_comm]

theorem lines_from_line (a : List Char) : ∀ (cur rest : List Char),
    (∀ c ∈ a, c ≠ '\n') →
    lines_from cur (a ++ '\n' :: rest) = String.mk (cur.reverse ++ a) :: lines_from [] rest := by
  induction a with
  | nil => intro cur rest _; simp [lines_from]
  | cons x a ih =>
    intro cur rest h
    have hx : x ≠ '\n' := h x (List.mem_cons_self _ _)
    have ha : ∀ c ∈ a, c ≠ '\n' := fun c hc => h c (List.mem_cons_of_mem _ hc)
    rw [List.cons_append, lines_from, if_neg hx, ih (x :: cur) rest ha]
    simp

/-- A record whose text holds no line feed is four lines: index, times, text, and an
empty line. -/
theorem record_lines (i : Nat) (a b : Nat) (text : String) (ha : a < 2 ^ 32) (hb : b < 2 ^ 32)
    (htext : ∀ c ∈ text.data, c ≠ '\n') :
    text_lines (toString i ++ "\n" ++ (pts2srt a ++ " --> " ++ pts2srt b) ++ "\n"
        ++ text ++ "\n" ++ "\n")
      = [toString i, pts2srt a ++ " --> " ++ pts2srt b, text, ""] := by
  have e : (toString i ++ "\n" ++ (pts2srt a ++ " --> " ++ pts2srt b) ++ "\n"
        ++ text ++ "\n" ++ "\n").data
      = (toString i).data ++ '\n' :: ((pts2srt a ++ " --> " ++ pts2srt b).data ++ '\n' ::
          (text.data ++ '\n' :: ([] ++ '\n' :: []))) := by
    simp only [String.data_append, List.append_assoc]
    rfl
  unfold text_lines
  rw [e, lines_from_line _ _ _ (toString_no_newline i),
    lines_from_line _ _ _ (time_line_no_newline a b ha hb),
    lines_from_line _ _ _ htext, lines_from_line [] _ _ (by simp)]
  rfl

/-- The loop on `n` answers that all yield the same recognised packet: `n` records,
and the counter advanced `n` times modulo `2 ^ 32`. -/
theorem foldl_step_replicate (sub : String) (p : Packet) (text : String) (hlen : 0 < p.len)
    (hts : 0 ≤ p.timestamp) (htext : p.text = some text) : ∀ (n : Nat) (st : State),
    st.status = Status.running → st.srtout = true → st.sub_counter < 2 ^ 32 →
    ((List.replicate n p).foldl (step sub) st).status = Status.running ∧
    ((List.replicate n p).foldl (step sub) st).srtout = true ∧
    ((List.replicate n p).foldl (step sub) st).srt.length = st.srt.length + n ∧
    ((List.replicate n p).foldl (step sub) st).sub_counter = (st.sub_counter + n) % 2 ^ 32 := by
  intro n
  induction n with
  | zero =>
    intro st h hout hc
    exact ⟨h, hout, rfl, (Nat.mod_eq_of_lt hc).symm⟩
  | succ n ih =>
    intro st h hout hc
    obtain ⟨h1, h2, h3, h4⟩ := step_success sub st p text h hout hlen hts htext
    have h5 : (step sub st p).sub_counter < 2 ^ 32 := by
      rw [h4]
      simp only [uinc, UINT_RANGE]
      omega
    obtain ⟨k1, k2, k3, k4⟩ := ih (step sub st p) h1 h2 h5
    rw [List.replicate_succ, List.foldl_cons]
    refine ⟨k1, k2, ?_, ?_⟩
    · rw [k3, h3, List.length_append, List.length_singleton]
      omega
    · rw [k4, h4]
      simp only [uinc, UINT_RANGE]
      omega

theorem main_replicate (argv : List String) (p : Packet) (text : String) (n : Nat)
    (hargc : argv.length = 2 ∨ argv.length = 3) (hlen : 0 < p.len)
    (hts : 0 ≤ p.timestamp) (htext : p.text = some text) :
    (main argv ⟨true, true, List.replicate n p⟩).srt.length = n ∧
    (main argv ⟨true, true, List.replicate n p⟩).sub_counter = (1 + n) % 2 ^ 32 := by
  obtain ⟨s1, s2, s3, s4⟩ := setup_ready argv ⟨true, true, List.replicate n p⟩ hargc rfl rfl
  obtain ⟨k1, k2, k3, k4⟩ := foldl_step_replicate (argv.getD 1 "") p text hlen hts htext n
    (setup argv ⟨true, true, List.replicate n p⟩) s1 s2 (by rw [s4]; decide)
  unfold main convert_loop
  rw [(finish_keeps argv _).1, (finish_keeps argv _).2, (end_of_stream_keeps _).1,
    (end_of_stream_keeps _).2.1]
  refine ⟨?_, ?_⟩
  · rw [k3, s3]
    simp
  · rw [k4, s4]

/-! ## The claims about the loop and `main` -/

/-- Claim C4, refuted as stated. First run: the demuxer returns 4294967295 packets
that are all recognised; 4294967295 records are written and the 32-bit counter, the
next index, has wrapped to `0`, which is not the number of records plus one. Second
run: `fopen` returned null; two of the packets yield successful recognition and no
record is written. -/
theorem index_wraps_and_null_output_gets_no_record :
    ((main sample_argv ⟨true, true,
        List.replicate 4294967295 (sample_packet 2048 0 0 90000 (some "Hello"))⟩).srt.length
        = 4294967295 ∧
      (main sample_argv ⟨true, true,
        List.replicate 4294967295 (sample_packet 2048 0 0 90000 (some "Hello"))⟩).sub_counter
        = 0) ∧
    ((successes sample_packets).length = 2 ∧
      (main sample_argv ⟨true, false, sample_packets⟩).srt = []) :=
  ⟨main_replicate sample_argv (sample_packet 2048 0 0 90000 (some "Hello")) "Hello" 4294967295
    (by decide) (by decide) (by decide) rfl, by decide, by decide⟩

/-- Claim C4, amended: in a run of `main` that reaches the loop with the output file
open, if `K` of the packets returned by the demuxer yield successful recognition and
`K + 1` fits the 32-bit counter, then exactly `K` records are written, and the
`j`-th of them (counting from 0) is the text that starts with the decimal index
`j + 1` on a line of its own, followed by the times and the text of the `j`-th
recognised packet; after any number `n` of answers the records written are as many
as the recognised packets among them and the counter is that number plus one; an
answer without successful recognition leaves records and counter as they were, and
a recognised packet adds one record and advances the counter. -/
theorem main_writes_one_record_per_success (argv : List String) (env : Env)
    (hargc : argv.length = 2 ∨ argv.length = 3) (hvob : env.vobsub_open_ok = true)
    (hfopen : env.fopen_ok = true)
    (hK : (successes env.packets).length + 1 < 2 ^ 32) :
    (main argv env).srt.length = (successes env.packets).length ∧
    (∀ j : Nat, (main argv env).srt[j]? = ((successes env.packets)[j]?).map
      (fun p => toString (j + 1) ++ "\n"
        ++ (pts2srt (int_to_unsigned p.timestamp) ++ " --> " ++ pts2srt p.end_pts) ++ "\n"
        ++ p.text.getD "" ++ "\n"
        ++ "\n")) ∧
    (∀ j : Nat, j < (successes env.packets).length →
      ∃ rest : String, (main argv env).srt[j]? = some (toString (j + 1) ++ "\n" ++ rest) ∧
        ∀ c ∈ (toString (j + 1)).data, c ≠ '\n') ∧
    (∀ n : Nat,
      ((env.packets.take n).foldl (step (argv.getD 1 "")) (setup argv env)).srt.length
        = (successes (env.packets.take n)).length ∧
      ((env.packets.take n).foldl (step (argv.getD 1 "")) (setup argv env)).sub_counter
        = ((env.packets.take n).foldl (step (argv.getD 1 "")) (setup argv env)).srt.length
          + 1) ∧
    (∀ (st : State) (p : Packet), recognized p = false →
      (step (argv.getD 1 "") st p).srt = st.srt ∧
      (step (argv.getD 1 "") st p).sub_counter = st.sub_counter) ∧
    (∀ (st : State) (p : Packet), st.status = Status.running → st.srtout = true →
      0 < p.len → recognized p = true →
      (step (argv.getD 1 "") st p).srt.length = st.srt.length + 1 ∧
      (step (argv.getD 1 "") st p).sub_counter = uinc st.sub_counter) := by
  obtain ⟨m1, _, _⟩ := main_numbered argv env hargc hvob hfopen hK
  have hj : ∀ j : Nat, (main argv env).srt[j]? = ((successes env.packets)[j]?).map
      (fun p => toString (j + 1) ++ "\n"
        ++ (pts2srt (int_to_unsigned p.timestamp) ++ " --> " ++ pts2srt p.end_pts) ++ "\n"
        ++ p.text.getD "" ++ "\n"
        ++ "\n") := by
    intro j
    rw [m1, numbered_getElem?]
    simp only [Nat.add_comm 1 j, srt_record_eq]
  refine ⟨?_, hj, ?_, ?_, ?_, ?_⟩
  · rw [m1, numbered_length]
  · intro j hlt
    refine ⟨(pts2srt (int_to_unsigned ((successes env.packets)[j]).timestamp) ++ " --> "
        ++ pts2srt ((successes env.packets)[j]).end_pts) ++ "\n"
        ++ ((successes env.packets)[j]).text.getD "" ++ "\n" ++ "\n", ?_,
      toString_no_newline _⟩
    rw [hj j, List.getElem?_eq_getElem hlt]
    simp only [Option.map_some', String.append_assoc]
  · intro n
    obtain ⟨s1, s2, s3, s4⟩ := setup_ready argv env hargc hvob hfopen
    have hle := successes_take_length_le env.packets n
    obtain ⟨_, _, l3, l4⟩ := loop_records (argv.getD 1 "") (env.packets.take n)
      (setup argv env) s1 s2 (by rw [s4]; omega)
    rw [l3, l4, s3, s4, List.nil_append, numbered_length]
    exact ⟨rfl, Nat.add_comm _ _⟩
  · intro st p hrec
    exact step_unrecognized (argv.getD 1 "") st p hrec
  · intro st p hrun hout hlen hrec
    have hts : 0 ≤ p.timestamp := by
      simp only [recognized, Bool.and_eq_true, decide_eq_true_eq] at hrec
      exact hrec.1
    cases htext : p.text with
    | none => simp [recognized, htext] at hrec
    | some text =>
      obtain ⟨_, _, h3, h4⟩ := step_success (argv.getD 1 "") st p text hrun hout hlen hts htext
      rw [h3, h4]
      simp

theorem main_writes_one_record_per_success_witness :
    (sample_argv.length = 2 ∨ sample_argv.length = 3) ∧
    (successes sample_packets).length + 1 < 2 ^ 32 ∧
    (main sample_argv ⟨true, true, sample_packets⟩).srt.length = 2 ∧
    (main sample_argv ⟨true, true, sample_packets⟩).srt[0]?
      = some "1\n00:00:00,000 --> 00:00:01,000\nHello\n\n" ∧
    (main sample_argv ⟨true, true, sample_packets⟩).srt[1]?
      = some "2\n00:00:02,000 --> 00:00:03,000\nWorld\n\n" :=
  ⟨by decide, by decide,
    ((main_writes_one_record_per_success sample_argv ⟨true, true, sample_packets⟩
      (by decide) rfl rfl (by decide)).1).trans (by decide),
    ((main_writes_one_record_per_success sample_argv ⟨true, true, sample_packets⟩
      (by decide) rfl rfl (by decide)).2.1 0).trans (by decide),
    ((main_writes_one_record_per_success sample_argv ⟨true, true, sample_packets⟩
      (by decide) rfl rfl (by decide)).2.1 1).trans (by decide)⟩

/-- Claim C5, refuted as stated: for the recognised text `"two\nlines\n"` the record
written is six lines, the body taking two of them and two empty lines following,
not one line of body text and one empty line. -/
theorem body_text_with_line_feeds_is_not_one_line :
    (step "movie" (setup sample_argv ⟨true, true, []⟩)
      (sample_packet 2048 90000 90000 180000 (some "two\nlines\n"))).srt
      = ["1\n00:00:01,000 --> 00:00:02,000\ntwo\nlines\n\n\n"] ∧
    text_lines "1\n00:00:01,000 --> 00:00:02,000\ntwo\nlines\n\n\n"
      = ["1", "00:00:01,000 --> 00:00:02,000", "two", "lines", "", ""] := by
  decide

/-- Claim C5, amended: the record the loop writes for a successful recognition, with
the counter at `i`, is the decimal rendering of `i`, a line feed,
`<pts2srt(start)> --> <pts2srt(end)>` (start: the packet timestamp, end: the
decoder-reported `end_pts`), a line feed, the recognised text as it is, and two line
feeds. When the text holds no line feed (and `end_pts` is a 32-bit value) the record
is exactly four lines: the index, the times, the text, and an empty line. -/
theorem step_writes_record (sub : String) (st : State) (p : Packet) (text : String)
    (h : st.status = Status.running) (hout : st.srtout = true) (hlen : 0 < p.len)
    (hts : 0 ≤ p.timestamp) (htext : p.text = some text) :
    (step sub st p).srt = st.srt ++
      [toString st.sub_counter ++ "\n"
        ++ (pts2srt (int_to_unsigned p.timestamp) ++ " --> " ++ pts2srt p.end_pts) ++ "\n"
        ++ text ++ "\n"
        ++ "\n"] ∧
    (p.end_pts < 2 ^ 32 → (∀ c ∈ text.data, c ≠ '\n') →
      text_lines (toString st.sub_counter ++ "\n"
        ++ (pts2srt (int_to_unsigned p.timestamp) ++ " --> " ++ pts2srt p.end_pts) ++ "\n"
        ++ text ++ "\n"
        ++ "\n")
      = [toString st.sub_counter,
         pts2srt (int_to_unsigned p.timestamp) ++ " --> " ++ pts2srt p.end_pts, text, ""]) := by
  obtain ⟨_, _, h3, _⟩ := step_success sub st p text h hout hlen hts htext
  refine ⟨by rw [h3, srt_record_eq], ?_⟩
  intro hend hline
  exact record_lines _ _ _ text (int_to_unsigned_lt _) hend hline

theorem step_writes_record_witness :
    (step "movie" (setup sample_argv ⟨true, true, []⟩)
      (sample_packet 2048 90000 90000 180000 (some "Hello"))).srt
      = [] ++ ["1" ++ "\n" ++ ("00:00:01,000" ++ " --> " ++ "00:00:02,000") ++ "\n"
        ++ "Hello" ++ "\n" ++ "\n"] ∧
    text_lines ("1" ++ "\n" ++ ("00:00:01,000" ++ " --> " ++ "00:00:02,000") ++ "\n"
        ++ "Hello" ++ "\n" ++ "\n")
      = ["1", "00:00:01,000" ++ " --> " ++ "00:00:02,000", "Hello", ""] :=
  ⟨(step_writes_record "movie" (setup sample_argv ⟨true, true, []⟩)
      (sample_packet 2048 90000 90000 180000 (some "Hello")) "Hello"
      (by decide) (by decide) (by decide) (by decide) rfl).1,
    (step_writes_record "movie" (setup sample_argv ⟨true, true, []⟩)
      (sample_packet 2048 90000 90000 180000 (some "Hello")) "Hello"
      (by decide) (by decide) (by decide) (by decide) rfl).2 (by decide) (by decide)⟩

/-- Claim C6, refuted as stated: the demuxer returns one packet that is recognised
and then answers `-1`; the output holds the one record written before, and `main`
returns `0`, not a non-zero status. -/
theorem negative_pull_returns_zero :
    (main sample_argv ⟨true, true,
      [sample_packet 2048 0 0 90000 (some "Hello"), sample_packet (-1) 0 0 0 none]⟩).srt
      = ["1\n00:00:00,000 --> 00:00:01,000\nHello\n\n"] ∧
    (main sample_argv ⟨true, true,
      [sample_packet 2048 0 0 90000 (some "Hello"), sample_packet (-1) 0 0 0 none]⟩).status
      = Status.returned 0 := by
  decide

/-- Claim C6, amended: in a run that reaches the loop with an open output file, when
pulling the next packet answers with a length that is not positive, the loop is left,
the output holds exactly the records written before that answer, and `main` returns
`0`; the answers of the demuxer after that one are never asked for. -/
theorem main_after_nonpositive_pull (argv : List String) (env : Env)
    (hargc : argv.length = 2 ∨ argv.length = 3) (hvob : env.vobsub_open_ok = true)
    (hfopen : env.fopen_ok = true) (before after : List Packet) (p : Packet)
    (hp : env.packets = before ++ p :: after) (hlen : p.len ≤ 0) :
    (main argv env).srt = (before.foldl (step (argv.getD 1 "")) (setup argv env)).srt ∧
    (main argv env).status = Status.returned 0 := by
  obtain ⟨s1, s2, _, _⟩ := setup_ready argv env hargc hvob hfopen
  obtain ⟨l1, l2⟩ := loop_status (argv.getD 1 "") before (setup argv env) (Or.inl s1) s2
  have hstep : (step (argv.getD 1 "") (before.foldl (step (argv.getD 1 "")) (setup argv env))
        p).status = Status.ended ∧
      (step (argv.getD 1 "") (before.foldl (step (argv.getD 1 "")) (setup argv env))
        p).srtout = true ∧
      (step (argv.getD 1 "") (before.foldl (step (argv.getD 1 "")) (setup argv env))
        p).srt = (before.foldl (step (argv.getD 1 "")) (setup argv env)).srt := by
    rcases l1 with l1 | l1
    · rw [step_end _ _ p l1 (not_lt.mpr hlen)]
      exact ⟨rfl, l2, rfl⟩
    · rw [step_stopped _ _ p (by rw [l1]; simp)]
      exact ⟨l1, l2, rfl⟩
  obtain ⟨h1, h2, h3⟩ := hstep
  have hfold : env.packets.foldl (step (argv.getD 1 "")) (setup argv env)
      = step (argv.getD 1 "") (before.foldl (step (argv.getD 1 "")) (setup argv env)) p := by
    rw [hp, List.foldl_append, List.foldl_cons]
    exact foldl_step_stopped _ after _ (by rw [h1]; simp)
  obtain ⟨e1, _, e3⟩ := end_of_stream_keeps
    (env.packets.foldl (step (argv.getD 1 "")) (setup argv env))
  have e4 := end_of_stream_status
    (env.packets.foldl (step (argv.getD 1 "")) (setup argv env)) (by rw [hfold]; exact Or.inr h1)
  obtain ⟨f1, _⟩ := finish_keeps argv
    (end_of_stream (env.packets.foldl (step (argv.getD 1 "")) (setup argv env)))
  have f3 := finish_status argv _ e4 (by rw [e3, hfold, h2])
  unfold main convert_loop
  refine ⟨?_, f3⟩
  rw [f1, e1, hfold, h3]

theorem main_after_nonpositive_pull_witness :
    (sample_argv.length = 2 ∨ sample_argv.length = 3) ∧
    (sample_packet (-1) 0 0 0 none).len ≤ 0 ∧
    (main sample_argv ⟨true, true,
      sample_packets ++ sample_packet (-1) 0 0 0 none :: sample_packets⟩).status
      = Status.returned 0 :=
  ⟨by decide, by decide,
    (main_after_nonpositive_pull sample_argv
      ⟨true, true, sample_packets ++ sample_packet (-1) 0 0 0 none :: sample_packets⟩
      (by decide) rfl rfl sample_packets sample_packets (sample_packet (-1) 0 0 0 none)
      rfl (by decide)).2⟩

/-- Claim C7, the code at `vobsub2srt movie`: the file opened for writing is named
after `argv[0]`, the program, and no file named after the subtitle stream is opened. -/
theorem output_file_named_after_program :
    srt_filename sample_argv = "vobsub2srt.srt" ∧
    Call.fopen "vobsub2srt.srt" ∈ (main sample_argv ⟨true, true, sample_packets⟩).calls ∧
    Call.fopen "movie.srt" ∉ (main sample_argv ⟨true, true, sample_packets⟩).calls := by
  decide

/-- Claim C8, the code when `fopen` returns null: `main` goes on into the loop, pulls
a packet, runs the decoder and the OCR engine on it and hands the null `FILE*` to
`fprintf`; it does not return a status. -/
theorem fopen_failure_enters_loop :
    (main sample_argv
      ⟨true, false, [sample_packet 2048 0 0 90000 (some "Hello")]⟩).calls =
      [Call.mp_msg_init, Call.SimpleInit, Call.vobsub_open "movie" none,
       Call.fopen "vobsub2srt.srt", Call.perror, Call.vobsub_get_next_packet,
       Call.spudec_assemble 2048 0, Call.spudec_heartbeat 0, Call.spudec_get_data,
       Call.TesseractRect 720 720 480,
       Call.fprintf "1\n00:00:00,000 --> 00:00:01,000\nHello\n\n"] ∧
    (main sample_argv
      ⟨true, false, [sample_packet 2048 0 0 90000 (some "Hello")]⟩).status
      = Status.undefined := by
  decide

/-- Claim C9, refuted as stated: for a stream of one packet without timestamp the
decoder is never called; `spudec_assemble` is not among the calls of the run. -/
theorem packet_without_timestamp_not_assembled :
    (main sample_argv ⟨true, true, [sample_packet 2048 (-1) 0 0 none]⟩).calls =
      [Call.mp_msg_init, Call.SimpleInit, Call.vobsub_open "movie" none,
       Call.fopen "vobsub2srt.srt", Call.vobsub_get_next_packet,
       Call.vobsub_get_next_packet, Call.End, Call.fclose, Call.vobsub_close,
       Call.spudec_free] := by
  decide

/-- Claim C9, amended: for a pulled packet whose timestamp is negative the loop body
does nothing: beyond the pull itself no collaborator is called (the packet is not
handed to `spudec_assemble`), no record is written, the counter is unchanged, and the
loop goes on with the next packet. -/
theorem packet_without_timestamp_skipped (sub : String) (st : State) (p : Packet)
    (h : st.status = Status.running) (hlen : 0 < p.len) (hts : p.timestamp < 0) :
    (step sub st p).calls = st.calls ++ [Call.vobsub_get_next_packet] ∧
    (step sub st p).srt = st.srt ∧
    (step sub st p).sub_counter = st.sub_counter ∧
    (step sub st p).status = Status.running ∧
    step sub st p = st.call Call.vobsub_get_next_packet := by
  have hs := step_no_timestamp sub st p h hlen hts
  rw [hs]
  exact ⟨rfl, rfl, rfl, h, rfl⟩

theorem packet_without_timestamp_skipped_witness :
    (step "movie" (setup sample_argv ⟨true, true, []⟩)
      (sample_packet 2048 (-1) 0 0 none)).calls
      = (setup sample_argv ⟨true, true, []⟩).calls ++ [Call.vobsub_get_next_packet] :=
  (packet_without_timestamp_skipped "movie" (setup sample_argv ⟨true, true, []⟩)
    (sample_packet 2048 (-1) 0 0 none) (by decide) (by decide) (by decide)).1

end VobSub2SRT
